import Mathlib

/-!
Verification of the TrailForge job-orchestration pipeline against its
natural-language specification.  The Python sources are shallowly embedded:
floats become exact rationals (`ℚ`), Python ints become `ℕ`/`ℤ`, fallible
code returns `Except`, and the effectful parts (HTTP fetch, Celery state
updates, the file system) are passed in explicitly as data.
-/

namespace TrailForge

/-- A geographic bounding box, `BBox` from `app/models/schemas.py`
(fields in decimal degrees, modelled as exact rationals). -/
structure BBox where
  south : ℚ
  west : ℚ
  north : ℚ
  east : ℚ
deriving DecidableEq, Repr

/-- `BBox.area_deg2` from `app/models/schemas.py`:
`abs(north - south) * abs(east - west)`. -/
def BBox.area_deg2 (b : BBox) : ℚ :=
  |b.north - b.south| * |b.east - b.west|

/-- Python `round` (banker's rounding, ties to even) on a rational. -/
def pyRound (q : ℚ) : ℤ :=
  let f : ℤ := ⌊q⌋
  let r : ℚ := q - f
  if r < 1/2 then f
  else if 1/2 < r then f + 1
  else if f % 2 = 0 then f else f + 1

/-- `round(math.sqrt(q))` for a nonnegative rational `q`, computed exactly:
`Nat.sqrt ⌊q⌋.toNat` is `⌊√q⌋`, and the fractional part of `√q` is
compared with `1/2` by comparing `q` with `(⌊√q⌋ + 1/2)^2`
(ties, i.e. `√q` exactly half-way, round to even as Python does). -/
def roundSqrt (q : ℚ) : ℕ :=
  let n := Nat.sqrt (⌊q⌋.toNat)
  if q < ((n : ℚ) + 1/2)^2 then n
  else if ((n : ℚ) + 1/2)^2 < q then n + 1
  else if n % 2 = 0 then n else n + 1

/-- The `while n_lat * n_lon < num_tiles` loop of `_compute_tiles`
(`app/services/osm_downloader.py`): repeatedly increment the smaller of
the two grid dimensions until the grid has at least `numTiles` cells.
Written with explicit fuel; fuel `numTiles` always suffices because each
iteration grows the product by at least one when both dimensions are
positive (see `growGrid_spec`). -/
def growGrid (numTiles : ℕ) : ℕ → ℕ → ℕ → ℕ × ℕ
  | 0, nLat, nLon => (nLat, nLon)
  | fuel + 1, nLat, nLon =>
    if nLat * nLon < numTiles then
      if nLat ≤ nLon then growGrid numTiles fuel (nLat + 1) nLon
      else growGrid numTiles fuel nLat (nLon + 1)
    else (nLat, nLon)

/-- `_compute_tiles` from `app/services/osm_downloader.py`: split a
bounding box into a row-major grid of tiles of at most `max_tile_area`
square degrees each (clamping each tile's north/east to the parent's). -/
def compute_tiles (bbox : BBox) (max_tile_area : ℚ) : List BBox :=
  let south := bbox.south
  let west := bbox.west
  let north := bbox.north
  let east := bbox.east
  let lat_span := north - south
  let lon_span := east - west
  let total_area := lat_span * lon_span
  if total_area ≤ max_tile_area then [bbox]
  else
    let num_tiles : ℕ := (⌈total_area / max_tile_area⌉).toNat
    let aspect : ℚ := if 0 < lat_span then lon_span / lat_span else 1
    let n_lat0 := max 1 (roundSqrt ((num_tiles : ℚ) / aspect))
    let n_lon0 := max 1 (roundSqrt ((num_tiles : ℚ) * aspect))
    let grid := growGrid num_tiles num_tiles n_lat0 n_lon0
    let n_lat := grid.1
    let n_lon := grid.2
    let lat_step := lat_span / n_lat
    let lon_step := lon_span / n_lon
    (List.range n_lat).flatMap fun (i : ℕ) =>
      (List.range n_lon).map fun (j : ℕ) =>
        { south := south + (i : ℚ) * lat_step
          west := west + (j : ℚ) * lon_step
          north := min (south + ((i : ℚ) + 1) * lat_step) north
          east := min (west + ((j : ℚ) + 1) * lon_step) east }

/-! ### Bounding-box validation (`app/models/schemas.py`) -/

/-- The `validate_lat` field validator: latitude must lie in `[-90, 90]`. -/
def validate_lat (v : ℚ) : Bool :=
  -90 ≤ v && v ≤ 90

/-- The `validate_lon` field validator: longitude must lie in `[-180, 180]`. -/
def validate_lon (v : ℚ) : Bool :=
  -180 ≤ v && v ≤ 180

/-- Python's `f"{x:.4f}"` formatting of a nonnegative rational: round to four
decimal places (ties to even, as for floats) and print with exactly four
fractional digits. -/
def fmt4 (q : ℚ) : String :=
  let n := (pyRound (q * 10000)).toNat
  let fracStr := toString (n % 10000)
  toString (n / 10000) ++ "." ++
    String.mk (List.replicate (4 - fracStr.length) '0') ++ fracStr

/-- `BBox.validate_area` from `app/models/schemas.py`, with the configured
maximum `MAX_BBOX_AREA_DEG2` passed explicitly.  Raising `ValueError(msg)`
is modelled as `Except.error msg`. -/
def validate_area (b : BBox) (max_bbox_area : ℚ) : Except String Unit :=
  let area := b.area_deg2
  if max_bbox_area < area then
    .error ("Selected area (" ++ fmt4 area ++ " deg²) exceeds maximum (" ++
      toString max_bbox_area ++ " deg²). Please select a smaller region.")
  else if area < 1/1000000 then
    .error "Selected area is too small."
  else
    .ok ()

/-! ### Range header parsing and the download endpoint (`app/api/routes.py`) -/

/-- Value of a string of decimal digit characters. -/
def digitsToNat (ds : List Char) : ℕ :=
  ds.foldl (fun a c => 10 * a + (c.toNat - Char.toNat '0')) 0

/-- `re.match(r"bytes=(\d+)-(\d*)", s)`: the pattern is anchored at the
start of the string only (`re.match` semantics), so trailing characters
after the match are unconstrained.  `\d+` and `\d*` are greedy, but since
a digit never matches `-` the greedy runs are exactly the maximal digit
runs.  Returns the two captured groups, the second `none` when empty. -/
def matchBytesRange (s : String) : Option (ℕ × Option ℕ) :=
  match s.data with
  | 'b' :: 'y' :: 't' :: 'e' :: 's' :: '=' :: rest =>
    let d1 := rest.takeWhile Char.isDigit
    let rest1 := rest.dropWhile Char.isDigit
    if d1.isEmpty then none
    else
      match rest1 with
      | '-' :: rest2 =>
        let d2 := rest2.takeWhile Char.isDigit
        some (digitsToNat d1, if d2.isEmpty then none else some (digitsToNat d2))
      | _ => none
  | _ => none

/-- The two failure modes of `_parse_range`: HTTP 416 with detail
"Invalid Range header", or HTTP 416 with detail "Range not satisfiable"
carrying a `Content-Range` header. -/
inductive RangeError where
  | invalidHeader
  | notSatisfiable (contentRange : String)
deriving DecidableEq, Repr

/-- The `end = int(match.group(2)) if match.group(2) else file_size - 1`
resolution step of `_parse_range`, as a function of the second captured
group: an omitted END resolves to `file_size - 1`. -/
def resolved_end (g2 : Option ℕ) (file_size : ℕ) : ℤ :=
  match g2 with
  | some e => (e : ℤ)
  | none => (file_size : ℤ) - 1

/-- `_parse_range` from `app/api/routes.py`: parse an HTTP Range header
against a file size, returning `(start, end)` byte positions or raising
(`Except.error`) an HTTP 416. -/
def parse_range (range_header : String) (file_size : ℕ) : Except RangeError (ℤ × ℤ) :=
  match matchBytesRange range_header with
  | none => .error .invalidHeader
  | some (g1, g2) =>
    let start : ℤ := g1
    let end_ : ℤ := resolved_end g2 file_size
    if start ≥ file_size ∨ end_ ≥ file_size ∨ start > end_ then
      .error (.notSatisfiable ("bytes */" ++ toString file_size))
    else
      .ok (start, end_)

/-- `DOWNLOAD_CHUNK_SIZE` from `app/api/routes.py` (1 MB). -/
def DOWNLOAD_CHUNK_SIZE : ℕ := 1024 * 1024

/-- The read loop of `_file_chunk_iterator`: starting at byte `pos` with
`remaining` bytes still wanted, read `min DOWNLOAD_CHUNK_SIZE remaining`
bytes at a time (`f.read` returns at most that many, fewer at EOF) and
stop on an empty read or once `remaining` reaches zero. -/
def chunkLoop (file : List ℕ) (pos remaining : ℕ) : List (List ℕ) :=
  if hrem : 0 < remaining then
    let chunk := (file.drop pos).take (min DOWNLOAD_CHUNK_SIZE remaining)
    if h : chunk = [] then []
    else chunk :: chunkLoop file (pos + chunk.length) (remaining - chunk.length)
  else []
termination_by remaining
decreasing_by
  exact Nat.sub_lt hrem (List.length_pos.mpr h)

/-- `_file_chunk_iterator` from `app/api/routes.py`: yield the file's bytes
between offsets `start` and `end_` inclusive, in chunks. -/
def file_chunk_iterator (file : List ℕ) (start end_ : ℕ) : List (List ℕ) :=
  chunkLoop file start (end_ - start + 1)

/-- An HTTP response as observed by the client: status code, body bytes,
headers, and the error detail for non-2xx responses. -/
structure HttpResponse where
  status : ℕ
  body : List ℕ
  headers : List (String × String)
  detail : String
deriving DecidableEq, Repr

/-- `download_file` from `app/api/routes.py`.  The job directory is
modelled as a lookup `jobFiles : String → Option (List ℕ)` from filename
to file content (`none` = `os.path.isfile` false), and the optional Range
header is passed explicitly. -/
def download_file (filename : String) (jobFiles : String → Option (List ℕ))
    (range_header : Option String) : HttpResponse :=
  if filename ≠ "gmapsupp.img" then
    { status := 400, body := [], headers := [], detail := "Invalid filename" }
  else
    match jobFiles filename with
    | none => { status := 404, body := [], headers := [], detail := "File not found" }
    | some content =>
      let file_size := content.length
      match range_header with
      | none =>
        { status := 200
          body := content
          headers := [("Accept-Ranges", "bytes"), ("Content-Length", toString file_size)]
          detail := "" }
      | some rh =>
        match parse_range rh file_size with
        | .error .invalidHeader =>
          { status := 416, body := [], headers := [], detail := "Invalid Range header" }
        | .error (.notSatisfiable cr) =>
          { status := 416, body := [], headers := [("Content-Range", cr)]
            detail := "Range not satisfiable" }
        | .ok (start, end_) =>
          let content_length := end_ - start + 1
          { status := 206
            body := (file_chunk_iterator content start.toNat end_.toNat).flatten
            headers := [("Accept-Ranges", "bytes"),
              ("Content-Range", "bytes " ++ toString start ++ "-" ++ toString end_ ++
                "/" ++ toString file_size),
              ("Content-Length", toString content_length),
              ("Content-Disposition", "attachment; filename=\"" ++ filename ++ "\"")]
            detail := "" }

/-! ### Tile fetch with retry (`app/services/osm_downloader.py`) -/

/-- Observable outcome of one `_download_tile` call: how many fetch
attempts ran, how many 5-second pauses were taken, the content written to
`output_path` (`none` when nothing was written), and the overall result. -/
structure TileFetchTrace where
  attempts : ℕ
  sleeps : ℕ
  outputFile : Option (List ℕ)
  result : Except String Unit
deriving Repr

/-- `_download_tile` from `app/services/osm_downloader.py`.  The two
network attempts are passed as data (`Except` of the fetched bytes); the
loop `for attempt in range(2)` tries the first, on failure sleeps 5 s and
tries the second, and re-raises the second failure.  The output file is
written only after a successful fetch (the exception is raised before the
`open`), so a failed run leaves no file. -/
def download_tile (attempt1 attempt2 : Except String (List ℕ)) : TileFetchTrace :=
  match attempt1 with
  | .ok content => { attempts := 1, sleeps := 0, outputFile := some content, result := .ok () }
  | .error _ =>
    match attempt2 with
    | .ok content => { attempts := 2, sleeps := 1, outputFile := some content, result := .ok () }
    | .error e => { attempts := 2, sleeps := 1, outputFile := none, result := .error e }

/-! ### External tool wrappers (`app/services/map_compiler.py`) -/

/-- `convert_to_pbf`: runs `osmium sort` and raises
`RuntimeError("osmium convert failed: " + stderr)` on a non-zero exit. -/
def convert_to_pbf (returncode : ℤ) (stderr : String) : Except String Unit :=
  if returncode ≠ 0 then .error ("osmium convert failed: " ++ stderr) else .ok ()

/-- `run_splitter`: runs splitter and raises
`RuntimeError("Splitter failed: " + stderr)` on a non-zero exit. -/
def run_splitter (returncode : ℤ) (stderr : String) : Except String Unit :=
  if returncode ≠ 0 then .error ("Splitter failed: " ++ stderr) else .ok ()

/-- `run_mkgmap`: runs mkgmap and raises
`RuntimeError("mkgmap failed: " + stderr)` on a non-zero exit. -/
def run_mkgmap (returncode : ℤ) (stderr : String) : Except String Unit :=
  if returncode ≠ 0 then .error ("mkgmap failed: " ++ stderr) else .ok ()

/-! ### Pipeline orchestration (`app/tasks/map_tasks.py`) -/

/-- One observable event of a job: a `PROGRESS` state update with a step
message, the task's successful return (Celery `SUCCESS` with the artifact
filename), or a raised exception (Celery `FAILURE` with the error). -/
inductive JobEvent where
  | progress (step : String)
  | success (filename : String)
  | failure (error : String)
deriving DecidableEq, Repr

/-- A run of `generate_map`: the ordered event trace and the number of
pipeline steps that were actually invoked. -/
structure PipelineRun where
  events : List JobEvent
  stepsExecuted : ℕ
deriving DecidableEq, Repr

/-- `generate_map` from `app/tasks/map_tasks.py`.  The four step bodies
(download, convert, split, compile) are passed as data, together with
whether `gmapsupp.img` exists in the job directory when the compile step
finishes.  Each step is preceded by its `update_state(PROGRESS)` call; an
exception aborts the remaining steps and surfaces as a `FAILURE` carrying
the exception's description (the `except` clause re-raises unchanged). -/
def generate_map (download convert split compile : Except String Unit)
    (artifactExists : Bool) : PipelineRun :=
  let p1 := JobEvent.progress "Downloading OSM data..."
  let p2 := JobEvent.progress "Converting to PBF..."
  let p3 := JobEvent.progress "Splitting map tiles..."
  let p4 := JobEvent.progress "Compiling Garmin IMG..."
  match download with
  | .error e => ⟨[p1, .failure e], 1⟩
  | .ok _ =>
    match convert with
    | .error e => ⟨[p1, p2, .failure e], 2⟩
    | .ok _ =>
      match split with
      | .error e => ⟨[p1, p2, p3, .failure e], 3⟩
      | .ok _ =>
        match compile with
        | .error e => ⟨[p1, p2, p3, p4, .failure e], 4⟩
        | .ok _ =>
          if artifactExists then
            ⟨[p1, p2, p3, p4, .success "gmapsupp.img"], 4⟩
          else
            ⟨[p1, p2, p3, p4, .failure "mkgmap did not produce gmapsupp.img"], 4⟩

/-- Decidable equality for `Except`, so that concrete runs of the embedded
fallible functions can be checked by `decide`. -/
instance instDecEqExcept {ε α : Type} [DecidableEq ε] [DecidableEq α] :
    DecidableEq (Except ε α) := fun a b =>
  match a, b with
  | .error e1, .error e2 =>
    if h : e1 = e2 then isTrue (by rw [h])
    else isFalse (by intro hc; injection hc; exact h ‹_›)
  | .error _, .ok _ => isFalse (by intro hc; exact Except.noConfusion hc)
  | .ok _, .error _ => isFalse (by intro hc; exact Except.noConfusion hc)
  | .ok a1, .ok a2 =>
    if h : a1 = a2 then isTrue (by rw [h])
    else isFalse (by intro hc; injection hc; exact h ‹_›)

/-! ### Helper lemmas -/

/-- The grid-growing loop, run with enough fuel, yields positive dimensions
whose product reaches `numTiles`; dimensions never shrink. -/
theorem growGrid_spec (nt : ℕ) : ∀ (fuel a b : ℕ), 1 ≤ a → 1 ≤ b →
    nt ≤ a * b + fuel →
    1 ≤ (growGrid nt fuel a b).1 ∧ 1 ≤ (growGrid nt fuel a b).2 ∧
      nt ≤ (growGrid nt fuel a b).1 * (growGrid nt fuel a b).2 := by
  intro fuel
  induction fuel with
  | zero =>
    intro a b ha hb hle
    simp only [growGrid]
    exact ⟨ha, hb, by simpa using hle⟩
  | succ f ih =>
    intro a b ha hb hle
    simp only [growGrid]
    by_cases hlt : a * b < nt
    · rw [if_pos hlt]
      by_cases hab : a ≤ b
      · rw [if_pos hab]
        exact ih (a + 1) b (by omega) hb (by nlinarith)
      · rw [if_neg hab]
        exact ih a (b + 1) ha (by omega) (by nlinarith)
    · rw [if_neg hlt]
      exact ⟨ha, hb, by simpa using Nat.le_of_not_lt hlt⟩

/-- Splitting off one chunk of at most `M` elements: the chunk followed by
the rest of an `r`-element slice is the `r`-element slice itself. -/
theorem take_chunk_append {α : Type} (d : List α) (M r : ℕ) (hM : M ≤ r) :
    d.take M ++ (d.drop (d.take M).length).take (r - (d.take M).length) = d.take r := by
  rcases le_or_lt M d.length with h | h
  · have hlen : (d.take M).length = M := by rw [List.length_take]; omega
    rw [hlen, ← List.take_add]
    congr 1
    omega
  · have htM : d.take M = d := List.take_of_length_le (by omega)
    rw [htM, List.drop_length, List.take_nil, List.append_nil,
      List.take_of_length_le (by omega)]

/-- Concatenating the chunks read by the download loop yields exactly the
`remaining`-byte slice of the file starting at `pos`. -/
theorem chunkLoop_flatten (file : List ℕ) : ∀ (remaining pos : ℕ),
    (chunkLoop file pos remaining).flatten = (file.drop pos).take remaining := by
  intro remaining
  induction remaining using Nat.strong_induction_on with
  | _ remaining ih =>
    intro pos
    rw [chunkLoop]
    by_cases hrem : 0 < remaining
    · rw [dif_pos hrem]
      by_cases hnil : (file.drop pos).take (min DOWNLOAD_CHUNK_SIZE remaining) = []
      · rw [dif_pos hnil]
        rcases List.take_eq_nil_iff.mp hnil with h0 | hdrop
        · have hD : 0 < DOWNLOAD_CHUNK_SIZE := by norm_num [DOWNLOAD_CHUNK_SIZE]
          omega
        · simp [hdrop]
      · rw [dif_neg hnil]
        have hlenpos : 0 <
            ((file.drop pos).take (min DOWNLOAD_CHUNK_SIZE remaining)).length :=
          List.length_pos.mpr hnil
        have hlen_le :
            ((file.drop pos).take (min DOWNLOAD_CHUNK_SIZE remaining)).length ≤
              remaining := by
          rw [List.length_take]
          omega
        rw [List.flatten_cons,
          ih (remaining - _) (by omega) _,
          ← List.drop_drop]
        exact take_chunk_append (file.drop pos) (min DOWNLOAD_CHUNK_SIZE remaining)
          remaining (min_le_right _ _)
    · rw [dif_neg hrem]
      have h0 : remaining = 0 := by omega
      simp [h0]

/-- Element `k` of a row-major grid built as `flatMap` over rows of `map`
over columns: it is the cell at row `k / nLon`, column `k % nLon`. -/
theorem getElem?_range_flatMap {α : Type} :
    ∀ (nLat : ℕ) (f : ℕ → ℕ → α) (nLon k : ℕ), k < nLat * nLon →
      ((List.range nLat).flatMap (fun i => (List.range nLon).map (f i)))[k]? =
        some (f (k / nLon) (k % nLon)) := by
  intro nLat
  induction nLat with
  | zero =>
    intro f nLon k hk
    simp at hk
  | succ n ihn =>
    intro f nLon k hk
    rw [List.range_succ_eq_map, List.flatMap_cons, List.flatMap_map]
    by_cases hk0 : k < nLon
    · rw [List.getElem?_append_left (by simpa using hk0)]
      rw [List.getElem?_map, List.getElem?_range hk0]
      simp [Nat.div_eq_of_lt hk0, Nat.mod_eq_of_lt hk0]
    · have hbig : nLon ≤ k := Nat.le_of_not_lt hk0
      have hn0 : 0 < nLon := by
        rcases Nat.eq_zero_or_pos nLon with h0 | h0
        · subst h0; omega
        · exact h0
      rw [List.getElem?_append_right (by simpa using hbig)]
      simp only [List.length_map, List.length_range]
      have hk' : k - nLon < n * nLon := by
        have : (n + 1) * nLon = n * nLon + nLon := by ring
        omega
      have := ihn (fun i j => f (i + 1) j) nLon (k - nLon) hk'
      simp only [Nat.succ_eq_add_one] at this ⊢
      rw [this]
      congr 2
      · rw [Nat.div_eq_sub_div hn0 hbig]
      · rw [Nat.mod_eq_sub_mod hbig]

/-- One-dimensional coverage: any point of the interval `[s, s + span]`
lies in one of the `n` equal sub-intervals of width `span / n`. -/
theorem coverage1D (s span : ℚ) (hspan : 0 < span) (n : ℕ) (hn : 0 < n)
    (x : ℚ) (hx1 : s ≤ x) (hx2 : x ≤ s + span) :
    ∃ i : ℕ, i < n ∧ s + i * (span / n) ≤ x ∧ x ≤ s + (i + 1) * (span / n) := by
  have hn0 : (0 : ℚ) < n := by exact_mod_cast hn
  have hstep : 0 < span / n := div_pos hspan hn0
  have hspan_eq : (n : ℚ) * (span / n) = span := by
    field_simp
  have hj0 : 0 ≤ ⌊(x - s) / (span / n)⌋ :=
    Int.floor_nonneg.mpr (div_nonneg (by linarith) hstep.le)
  by_cases hcase : (⌊(x - s) / (span / n)⌋).toNat < n
  · refine ⟨(⌊(x - s) / (span / n)⌋).toNat, hcase, ?_, ?_⟩
    · have h1 : (⌊(x - s) / (span / n)⌋ : ℚ) ≤ (x - s) / (span / n) :=
        Int.floor_le _
      have hcast : ((⌊(x - s) / (span / n)⌋).toNat : ℚ) =
          (⌊(x - s) / (span / n)⌋ : ℚ) := by
        exact_mod_cast Int.toNat_of_nonneg hj0
      rw [hcast]
      have := (le_div_iff₀ hstep).mp h1
      linarith
    · have h2 : (x - s) / (span / n) < (⌊(x - s) / (span / n)⌋ : ℚ) + 1 :=
        Int.lt_floor_add_one _
      have hcast : ((⌊(x - s) / (span / n)⌋).toNat : ℚ) =
          (⌊(x - s) / (span / n)⌋ : ℚ) := by
        exact_mod_cast Int.toNat_of_nonneg hj0
      rw [hcast]
      have := (div_lt_iff₀ hstep).mp h2
      linarith
  · refine ⟨n - 1, by omega, ?_, ?_⟩
    · have hjn : (n : ℤ) ≤ ⌊(x - s) / (span / n)⌋ := by omega
      have h1 : (n : ℚ) ≤ (x - s) / (span / n) :=
        le_trans (by exact_mod_cast hjn) (Int.floor_le _)
      have hxs : (n : ℚ) * (span / n) ≤ x - s := (le_div_iff₀ hstep).mp h1
      have hnn : ((n - 1 : ℕ) : ℚ) = (n : ℚ) - 1 := by
        push_cast [Nat.cast_sub hn]
        ring
      rw [hnn]
      nlinarith
    · have hnn : ((n - 1 : ℕ) : ℚ) = (n : ℚ) - 1 := by
        push_cast [Nat.cast_sub hn]
        ring
      rw [hnn]
      have : ((n : ℚ) - 1 + 1) * (span / n) = span := by
        rw [sub_add_cancel, hspan_eq]
      rw [this]
      linarith

/-- Length of a row-major grid list: `nLat * nLon`. -/
theorem length_range_flatMap {α : Type} (f : ℕ → ℕ → α) (nLat nLon : ℕ) :
    ((List.range nLat).flatMap fun i => (List.range nLon).map (f i)).length =
      nLat * nLon := by
  induction nLat with
  | zero => simp
  | succ n ih =>
    rw [List.range_succ, List.flatMap_append, List.length_append, ih]
    simp [Nat.succ_mul]

/-- When the fast path is not taken, `_compute_tiles` produces at least
`ceil(area / T)` tiles. -/
theorem compute_tiles_length_ge (b : BBox) (T : ℚ)
    (hnot : ¬((b.north - b.south) * (b.east - b.west) ≤ T)) :
    (⌈(b.north - b.south) * (b.east - b.west) / T⌉).toNat ≤
      (compute_tiles b T).length := by
  simp only [compute_tiles]
  rw [if_neg hnot, length_range_flatMap]
  exact (growGrid_spec _ _ _ _ (Nat.le_max_left 1 _) (Nat.le_max_left 1 _)
    (by omega)).2.2

/-! ### C8: small bounding boxes are returned as a single tile -/

/-- **C8**: for every bounding box whose area is at most the per-tile
threshold `T`, `_compute_tiles` returns exactly the single-element list
containing the input bbox unchanged. -/
theorem c8_small_area_single_tile (b : BBox) (T : ℚ) (h : b.area_deg2 ≤ T) :
    compute_tiles b T = [b] := by
  have habs : |(b.north - b.south) * (b.east - b.west)| = b.area_deg2 := by
    rw [BBox.area_deg2, abs_mul]
  have hle : (b.north - b.south) * (b.east - b.west) ≤ T :=
    le_trans (le_abs_self _) (by rw [habs]; exact h)
  simp [compute_tiles, hle]

/-- Witness for C8: the spec's example bbox `{45.0, 7.0, 45.1, 7.1}` of
area `0.01 deg²` with `T = 0.25` yields the single tile equal to the
input. -/
theorem c8_witness :
    compute_tiles ⟨45, 7, 451/10, 71/10⟩ (1/4) = [⟨45, 7, 451/10, 71/10⟩] :=
  c8_small_area_single_tile ⟨45, 7, 451/10, 71/10⟩ (1/4)
    (by norm_num [BBox.area_deg2])

/-! ### C10: inverted-orientation boxes and the signed-area fast path -/

/-- **C10** counterexample: the claim says every box with
`north < south` **or** `east < west` has non-positive signed area and is
returned as a single tile.  With *both* orientations inverted the signed
area is positive: the box `south = 46, west = 8, north = 44, east = 6`
passes validation (absolute area 4 ≤ 4) and satisfies `north < south`,
yet `_compute_tiles` partitions it instead of returning `[bbox]`. -/
theorem c10_counterexample :
    (BBox.north ⟨46, 8, 44, 6⟩ < BBox.south ⟨46, 8, 44, 6⟩ ∨
      BBox.east ⟨46, 8, 44, 6⟩ < BBox.west ⟨46, 8, 44, 6⟩) ∧
    validate_area ⟨46, 8, 44, 6⟩ 4 = .ok () ∧
    compute_tiles ⟨46, 8, 44, 6⟩ (1/4) ≠ [⟨46, 8, 44, 6⟩] := by
  refine ⟨Or.inl (by norm_num), ?_, ?_⟩
  · unfold validate_area
    norm_num [BBox.area_deg2]
  · intro hc
    have hlen := compute_tiles_length_ge ⟨46, 8, 44, 6⟩ (1/4) (by norm_num)
    rw [hc] at hlen
    norm_num [Int.toNat_ofNat] at hlen

/-- **C10** (amended): for every bounding box in which *exactly one*
orientation is inverted (`north < south` with `west ≤ east`, or
`east < west` with `south ≤ north`) the signed area
`(north - south) * (east - west)` is non-positive, so for any
non-negative threshold the fast-path test succeeds and `_compute_tiles`
returns the box as a single tile, no matter how large its absolute area
is.  (Such boxes can still pass validation because `area_deg2` takes
absolute values; with both orientations inverted the signed area is
positive and partitioning can occur, as the counterexample shows.) -/
theorem c10_single_inverted_orientation_single_tile (b : BBox) (T : ℚ)
    (hT : 0 ≤ T)
    (h : (b.north < b.south ∧ b.west ≤ b.east) ∨
      (b.east < b.west ∧ b.south ≤ b.north)) :
    compute_tiles b T = [b] := by
  have hle : (b.north - b.south) * (b.east - b.west) ≤ T := by
    refine le_trans ?_ hT
    rcases h with ⟨h1, h2⟩ | ⟨h1, h2⟩
    · exact mul_nonpos_iff.mpr (Or.inr ⟨by linarith, by linarith⟩)
    · exact mul_nonpos_iff.mpr (Or.inl ⟨by linarith, by linarith⟩)
  simp [compute_tiles, hle]

/-- Witness for C10 (amended): the inverted box
`south = 46, west = 6, north = 44, east = 8` (absolute area 4, far above
`T = 0.25`) is returned as a single tile. -/
theorem c10_witness :
    compute_tiles ⟨46, 6, 44, 8⟩ (1/4) = [⟨46, 6, 44, 8⟩] :=
  c10_single_inverted_orientation_single_tile ⟨46, 6, 44, 8⟩ (1/4)
    (by norm_num) (Or.inl ⟨by norm_num, by norm_num⟩)

/-! ### C2: Range headers that are not exactly of the documented form -/

/-- **C2** counterexample: the claim says any Range header that is not
exactly `bytes=START-END` or `bytes=START-` — in particular a multi-range
header — is rejected as malformed.  But `re.match` only anchors at the
start of the string, so `_parse_range` silently accepts
`bytes=0-99,200-300` by parsing only its `bytes=0-99` head. -/
theorem c2_counterexample :
    parse_range "bytes=0-99,200-300" 1000 = .ok (0, 99) := by
  decide

/-- **C2** (amended): `_parse_range` rejects a Range header as malformed
exactly when the header does not *begin with* `bytes=START-` or
`bytes=START-END`; a header whose beginning matches is accepted with the
trailing content ignored (so a multi-range header such as
`bytes=0-99,200-300` is treated as `bytes=0-99`), while genuinely
malformed headers (missing `bytes=`, missing digits, missing dash) are
rejected. -/
theorem c2_reject_iff_no_match :
    (∀ (s : String) (fs : ℕ),
      parse_range s fs = .error .invalidHeader ↔ matchBytesRange s = none) ∧
    parse_range "bytes=0-99,200-300" 1000 = .ok (0, 99) ∧
    parse_range "0-99" 1000 = .error .invalidHeader ∧
    parse_range "bytes=-99" 1000 = .error .invalidHeader ∧
    parse_range "bytes=099" 1000 = .error .invalidHeader := by
  refine ⟨?_, by decide, by decide, by decide, by decide⟩
  intro s fs
  cases h : matchBytesRange s with
  | none => simp [parse_range, h]
  | some g =>
    obtain ⟨g1, g2⟩ := g
    simp only [parse_range, h]
    split <;> simp

/-! ### C5: single-tile fetch retry semantics -/

/-- **C5**: for every single-tile fetch, `_download_tile` makes at most two
attempts; if the first attempt fails it pauses once (the fixed 5-second
interval) and retries exactly once; a second-attempt success completes
without error; an error propagates to the caller if and only if both
attempts fail, and in that case no output file was written (so no partial
output is left in a usable state). -/
theorem c5_download_tile_retry (r1 r2 : Except String (List ℕ)) :
    (download_tile r1 r2).attempts ≤ 2 ∧
    (∀ c, r1 = .ok c →
      download_tile r1 r2 =
        { attempts := 1, sleeps := 0, outputFile := some c, result := .ok () }) ∧
    (∀ e c, r1 = .error e → r2 = .ok c →
      download_tile r1 r2 =
        { attempts := 2, sleeps := 1, outputFile := some c, result := .ok () }) ∧
    (∀ e1 e2, r1 = .error e1 → r2 = .error e2 →
      download_tile r1 r2 =
        { attempts := 2, sleeps := 1, outputFile := none, result := .error e2 }) ∧
    ((∃ e, (download_tile r1 r2).result = .error e) ↔
      (∃ e, r1 = .error e) ∧ (∃ e, r2 = .error e)) ∧
    ((∃ e, (download_tile r1 r2).result = .error e) →
      (download_tile r1 r2).outputFile = none) := by
  rcases r1 with e1 | c1 <;> rcases r2 with e2 | c2 <;>
    simp [download_tile]

/-- Witness for C5: a fetch that fails once with "timeout" and succeeds on
the retry completes without error, with two attempts, one pause, and the
fetched content written. -/
theorem c5_witness :
    download_tile (.error "timeout") (.ok [1, 2, 3]) =
      { attempts := 2, sleeps := 1, outputFile := some [1, 2, 3],
        result := .ok () } :=
  (c5_download_tile_retry (.error "timeout") (.ok [1, 2, 3])).2.2.1
    "timeout" [1, 2, 3] rfl rfl

/-! ### C4: pipeline step order, failure shortcut, completion check -/

/-- **C4**: the per-job pipeline emits its progress steps in the fixed
order Downloading → Converting → Splitting → Compiling → Completed with no
step skipped or repeated; if any step raises, the job ends as a failure
recording that step's error (the embedded tool wrappers show the message
names the failing step's tool), no subsequent step executes, and the
success event is emitted only when every step succeeded *and* the expected
output artifact `gmapsupp.img` exists. -/
theorem c4_pipeline_state_machine (dl cv sp mk : Except String Unit)
    (art : Bool) :
    (JobEvent.success "gmapsupp.img" ∈ (generate_map dl cv sp mk art).events ↔
      dl = .ok () ∧ cv = .ok () ∧ sp = .ok () ∧ mk = .ok () ∧ art = true) ∧
    (dl = .ok () → cv = .ok () → sp = .ok () → mk = .ok () → art = true →
      generate_map dl cv sp mk art =
        ⟨[.progress "Downloading OSM data...", .progress "Converting to PBF...",
          .progress "Splitting map tiles...", .progress "Compiling Garmin IMG...",
          .success "gmapsupp.img"], 4⟩) ∧
    (∀ e, dl = .error e →
      generate_map dl cv sp mk art =
        ⟨[.progress "Downloading OSM data...", .failure e], 1⟩) ∧
    (∀ e, dl = .ok () → cv = .error e →
      generate_map dl cv sp mk art =
        ⟨[.progress "Downloading OSM data...", .progress "Converting to PBF...",
          .failure e], 2⟩) ∧
    (∀ e, dl = .ok () → cv = .ok () → sp = .error e →
      generate_map dl cv sp mk art =
        ⟨[.progress "Downloading OSM data...", .progress "Converting to PBF...",
          .progress "Splitting map tiles...", .failure e], 3⟩) ∧
    (∀ e, dl = .ok () → cv = .ok () → sp = .ok () → mk = .error e →
      generate_map dl cv sp mk art =
        ⟨[.progress "Downloading OSM data...", .progress "Converting to PBF...",
          .progress "Splitting map tiles...", .progress "Compiling Garmin IMG...",
          .failure e], 4⟩) ∧
    (dl = .ok () → cv = .ok () → sp = .ok () → mk = .ok () → art = false →
      generate_map dl cv sp mk art =
        ⟨[.progress "Downloading OSM data...", .progress "Converting to PBF...",
          .progress "Splitting map tiles...", .progress "Compiling Garmin IMG...",
          .failure "mkgmap did not produce gmapsupp.img"], 4⟩) ∧
    (∀ rc err, rc ≠ 0 →
      convert_to_pbf rc err = .error ("osmium convert failed: " ++ err)) ∧
    (∀ rc err, rc ≠ 0 →
      run_splitter rc err = .error ("Splitter failed: " ++ err)) ∧
    (∀ rc err, rc ≠ 0 →
      run_mkgmap rc err = .error ("mkgmap failed: " ++ err)) := by
  refine ⟨?_, ?_, ?_, ?_, ?_, ?_, ?_, ?_, ?_, ?_⟩
  · rcases dl with e | ⟨⟩ <;> rcases cv with e' | ⟨⟩ <;>
      rcases sp with e'' | ⟨⟩ <;> rcases mk with e''' | ⟨⟩ <;>
      rcases art with _ | _ <;> simp [generate_map]
  · intro h1 h2 h3 h4 h5
    rw [h1, h2, h3, h4, h5]
    simp [generate_map]
  · intro e he
    rw [he]
    simp [generate_map]
  · intro e h1 he
    rw [h1, he]
    simp [generate_map]
  · intro e h1 h2 he
    rw [h1, h2, he]
    simp [generate_map]
  · intro e h1 h2 h3 he
    rw [h1, h2, h3, he]
    simp [generate_map]
  · intro h1 h2 h3 h4 h5
    rw [h1, h2, h3, h4, h5]
    simp [generate_map]
  · intro rc err hrc
    simp [convert_to_pbf, hrc]
  · intro rc err hrc
    simp [run_splitter, hrc]
  · intro rc err hrc
    simp [run_mkgmap, hrc]

/-- Witness for C4: with every step succeeding and the artifact present,
the trace is exactly the five events in pipeline order. -/
theorem c4_witness :
    generate_map (.ok ()) (.ok ()) (.ok ()) (.ok ()) true =
      ⟨[.progress "Downloading OSM data...", .progress "Converting to PBF...",
        .progress "Splitting map tiles...", .progress "Compiling Garmin IMG...",
        .success "gmapsupp.img"], 4⟩ :=
  (c4_pipeline_state_machine (.ok ()) (.ok ()) (.ok ()) (.ok ()) true).2.1
    rfl rfl rfl rfl rfl

/-! ### C6: bounding-box area validation -/

/-- **C6**: for every in-range bounding box, `validate_area` raises a
validation error if and only if the computed area exceeds the configured
maximum or falls below the minimum threshold `1e-6` (so the boundary case
`area = maxArea` passes); an over-large rejection message contains both the
computed area (formatted to four decimals) and the configured maximum;
the spec's concrete cases: area `4.0000` with max `4.0` passes, area
`4.0001` fails with a message showing both numbers, and area `0.0000001`
is rejected as too small. -/
theorem c6_validate_area_bounds (b : BBox) (maxArea : ℚ)
    (hs : validate_lat b.south = true) (hn : validate_lat b.north = true)
    (hw : validate_lon b.west = true) (he : validate_lon b.east = true) :
    ((∃ m, validate_area b maxArea = .error m) ↔
      maxArea < b.area_deg2 ∨ b.area_deg2 < 1/1000000) ∧
    (maxArea < b.area_deg2 →
      ∃ s1 s2 s3, validate_area b maxArea =
        .error (s1 ++ fmt4 b.area_deg2 ++ s2 ++ toString maxArea ++ s3)) ∧
    validate_area ⟨0, 0, 2, 2⟩ 4 = .ok () ∧
    validate_area ⟨0, 0, 1, 40001/10000⟩ 4 =
      .error "Selected area (4.0001 deg²) exceeds maximum (4 deg²). Please select a smaller region." ∧
    validate_area ⟨0, 0, 1/10000000, 1⟩ 4 = .error "Selected area is too small." := by
  refine ⟨?_, ?_, ?_, ?_, ?_⟩
  · simp only [validate_area]
    split_ifs with h1 h2
    · exact ⟨fun _ => Or.inl h1, fun _ => ⟨_, rfl⟩⟩
    · exact ⟨fun _ => Or.inr h2, fun _ => ⟨_, rfl⟩⟩
    · constructor
      · rintro ⟨m, hm⟩
        exact hm.elim
      · rintro (h | h)
        · exact absurd h h1
        · exact absurd h h2
  · intro h1
    refine ⟨"Selected area (", " deg²) exceeds maximum (",
      " deg²). Please select a smaller region.", ?_⟩
    unfold validate_area
    rw [if_pos h1]
  · unfold validate_area
    norm_num [BBox.area_deg2]
  · have harea : BBox.area_deg2 ⟨0, 0, 1, 40001/10000⟩ = 40001/10000 := by
      rw [BBox.area_deg2]
      show |(1:ℚ) - 0| * |(40001:ℚ)/10000 - 0| = 40001/10000
      rw [abs_of_nonneg (by norm_num : (0:ℚ) ≤ (1:ℚ) - 0),
        abs_of_nonneg (by norm_num : (0:ℚ) ≤ (40001:ℚ)/10000 - 0)]
      norm_num
    have hfmt : fmt4 ((40001:ℚ)/10000) = "4.0001" := by
      have hpy : pyRound ((40001:ℚ)/10000 * 10000) = 40001 := by
        norm_num [pyRound]
      simp only [fmt4]
      rw [hpy]
      decide
    unfold validate_area
    rw [harea, if_pos (by norm_num), hfmt]
    decide
  · have harea : BBox.area_deg2 ⟨0, 0, 1/10000000, 1⟩ = 1/10000000 := by
      rw [BBox.area_deg2]
      show |(1:ℚ)/10000000 - 0| * |(1:ℚ) - 0| = 1/10000000
      rw [abs_of_nonneg (by norm_num : (0:ℚ) ≤ (1:ℚ)/10000000 - 0),
        abs_of_nonneg (by norm_num : (0:ℚ) ≤ (1:ℚ) - 0)]
      norm_num
    unfold validate_area
    rw [harea, if_neg (by norm_num), if_pos (by norm_num)]

/-- Witness for C6: instantiating at the boundary box `(0,0,2,2)` of area
exactly `4` with `maxArea = 4`: no error is raised. -/
theorem c6_witness :
    ¬(∃ m, validate_area ⟨0, 0, 2, 2⟩ 4 = .error m) :=
  fun hex =>
    by
      have h := (c6_validate_area_bounds ⟨0, 0, 2, 2⟩ 4 (by norm_num [validate_lat])
        (by norm_num [validate_lat]) (by norm_num [validate_lon])
        (by norm_num [validate_lon])).1.mp hex
      rw [show BBox.area_deg2 ⟨0, 0, 2, 2⟩ = 4 by norm_num [BBox.area_deg2]] at h
      rcases h with h | h <;> norm_num at h

/-! ### C3: range resolution and satisfiability -/

/-- Rendering an integer that is a cast natural number is the same as
rendering the natural number. -/
theorem int_toString_natCast (n : ℕ) : toString ((n : ℤ)) = toString n := rfl

/-- **C3**: for every well-formed Range header, `_parse_range` resolves an
omitted END to `fileSize - 1`, returns `(START, END)` exactly when
`0 ≤ START ≤ END < fileSize`, and otherwise raises an unsatisfiable-range
error carrying a `Content-Range` of the form `bytes */fileSize`; on a
1000-byte file, `bytes=0-99` gives `(0, 99)`, `bytes=900-` gives
`(900, 999)`, and `bytes=1000-1005` and `bytes=500-100` are
unsatisfiable. -/
theorem c3_parse_range_semantics :
    (∀ (s : String) (fs st : ℕ) (oe : Option ℕ),
      matchBytesRange s = some (st, oe) →
      (parse_range s fs = .ok ((st : ℤ), resolved_end oe fs) ↔
        0 ≤ (st : ℤ) ∧ (st : ℤ) ≤ resolved_end oe fs ∧
          resolved_end oe fs < (fs : ℤ)) ∧
      (¬(0 ≤ (st : ℤ) ∧ (st : ℤ) ≤ resolved_end oe fs ∧
          resolved_end oe fs < (fs : ℤ)) →
        parse_range s fs =
          .error (.notSatisfiable ("bytes */" ++ toString fs)))) ∧
    parse_range "bytes=0-99" 1000 = .ok (0, 99) ∧
    parse_range "bytes=900-" 1000 = .ok (900, 999) ∧
    parse_range "bytes=1000-1005" 1000 =
      .error (.notSatisfiable "bytes */1000") ∧
    parse_range "bytes=500-100" 1000 =
      .error (.notSatisfiable "bytes */1000") := by
  refine ⟨?_, by decide, by decide, by decide, by decide⟩
  intro s fs st oe h
  simp only [parse_range, h]
  constructor
  · constructor
    · intro hok
      by_cases hcond : (st : ℤ) ≥ fs ∨ resolved_end oe fs ≥ fs ∨
          (st : ℤ) > resolved_end oe fs
      · rw [if_pos hcond] at hok
        simp at hok
      · push_neg at hcond
        exact ⟨by omega, by omega, by omega⟩
    · intro h3
      obtain ⟨h0, hse, hef⟩ := h3
      rw [if_neg (by omega)]
  · intro hnc
    rw [if_pos (by omega)]

/-- Witness for C3: a concrete well-formed header `bytes=10-19` on a
1000-byte file resolves to `(10, 19)`. -/
theorem c3_witness :
    parse_range "bytes=10-19" 1000 = .ok (10, resolved_end (some 19) 1000) :=
  ((c3_parse_range_semantics.1 "bytes=10-19" 1000 10 (some 19)
    (by decide)).1).mpr (by decide)

/-! ### C9: only the canonical artifact is served -/

/-- **C9**: for every download request, a filename other than the single
canonical `gmapsupp.img` is rejected with a 400 regardless of the job
directory's contents (so before any file access); a request for the
canonical name when the artifact is absent yields a 404; and every
successful (200/206) response serves the canonical artifact — its body is
the artifact's content or a contiguous slice of it, never another file. -/
theorem c9_download_guards (filename : String)
    (jobFiles : String → Option (List ℕ)) (rh : Option String) :
    (filename ≠ "gmapsupp.img" →
      download_file filename jobFiles rh =
        { status := 400, body := [], headers := [], detail := "Invalid filename" }) ∧
    (jobFiles "gmapsupp.img" = none →
      download_file "gmapsupp.img" jobFiles rh =
        { status := 404, body := [], headers := [], detail := "File not found" }) ∧
    ((download_file filename jobFiles rh).status = 200 ∨
      (download_file filename jobFiles rh).status = 206 →
      filename = "gmapsupp.img" ∧
      ∃ content, jobFiles "gmapsupp.img" = some content ∧
        ((download_file filename jobFiles rh).body = content ∨
          ∃ a c, (download_file filename jobFiles rh).body =
            (content.drop a).take c)) := by
  refine ⟨?_, ?_, ?_⟩
  · intro hne
    simp [download_file, hne]
  · intro hnone
    simp [download_file, hnone]
  · intro hstat
    by_cases hf : filename = "gmapsupp.img"
    · subst hf
      refine ⟨rfl, ?_⟩
      cases hjf : jobFiles "gmapsupp.img" with
      | none =>
        exfalso
        simp [download_file, hjf] at hstat
      | some content =>
        refine ⟨content, rfl, ?_⟩
        cases rh with
        | none =>
          left
          simp [download_file, hjf]
        | some r =>
          cases hp : parse_range r content.length with
          | error e =>
            exfalso
            cases e <;> simp [download_file, hjf, hp] at hstat
          | ok se =>
            right
            obtain ⟨st, en⟩ := se
            refine ⟨st.toNat, en.toNat - st.toNat + 1, ?_⟩
            simp [download_file, hjf, hp, file_chunk_iterator, chunkLoop_flatten]
    · exfalso
      simp [download_file, hf] at hstat

/-- Witness for C9: requesting `evil.txt` is rejected with a 400 even
though the job directory resolves every filename. -/
theorem c9_witness :
    download_file "evil.txt" (fun _ => some [7, 7]) none =
      { status := 400, body := [], headers := [], detail := "Invalid filename" } :=
  (c9_download_guards "evil.txt" (fun _ => some [7, 7]) none).1 (by decide)

/-! ### C7: partial downloads stream exactly the requested bytes -/

/-- **C7**: for every satisfiable range `(START, END)` on a file, the
partial-download path streams exactly the bytes at offsets `START` through
`END` inclusive — `END - START + 1` bytes in total, stopping exactly at
`END` even when the file contains more data — and responds with
`Content-Range: bytes START-END/fileSize`,
`Content-Length: END - START + 1`, and a partial-content 206 status. -/
theorem c7_partial_download (content : List ℕ) (st en : ℕ) (rh : String)
    (h1 : st ≤ en) (h2 : en < content.length)
    (hp : parse_range rh content.length = .ok ((st : ℤ), (en : ℤ))) :
    (download_file "gmapsupp.img"
      (fun f => if f = "gmapsupp.img" then some content else none)
      (some rh)).status = 206 ∧
    (download_file "gmapsupp.img"
      (fun f => if f = "gmapsupp.img" then some content else none)
      (some rh)).body = (content.drop st).take (en - st + 1) ∧
    (download_file "gmapsupp.img"
      (fun f => if f = "gmapsupp.img" then some content else none)
      (some rh)).body.length = en - st + 1 ∧
    ("Content-Range", "bytes " ++ toString st ++ "-" ++ toString en ++ "/" ++
      toString content.length) ∈
      (download_file "gmapsupp.img"
        (fun f => if f = "gmapsupp.img" then some content else none)
        (some rh)).headers ∧
    ("Content-Length", toString (en - st + 1)) ∈
      (download_file "gmapsupp.img"
        (fun f => if f = "gmapsupp.img" then some content else none)
        (some rh)).headers := by
  have hcl : (en : ℤ) - (st : ℤ) + 1 = ((en - st + 1 : ℕ) : ℤ) := by omega
  have hresp : download_file "gmapsupp.img"
      (fun f => if f = "gmapsupp.img" then some content else none)
      (some rh) =
      { status := 206
        body := (content.drop st).take (en - st + 1)
        headers := [("Accept-Ranges", "bytes"),
          ("Content-Range", "bytes " ++ toString st ++ "-" ++ toString en ++
            "/" ++ toString content.length),
          ("Content-Length", toString (en - st + 1)),
          ("Content-Disposition", "attachment; filename=\"gmapsupp.img\"")]
        detail := "" } := by
    simp [download_file, hp, file_chunk_iterator, chunkLoop_flatten, hcl,
      int_toString_natCast]
    rw [show ((en - st : ℕ) : ℤ) + 1 = ((en - st + 1 : ℕ) : ℤ) from by
      push_cast; ring]
    rw [int_toString_natCast]
  refine ⟨by rw [hresp], by rw [hresp], ?_, by rw [hresp]; simp,
    by rw [hresp]; simp⟩
  rw [hresp]
  simp only [List.length_take, List.length_drop]
  omega

/-- Witness for C7: on a 10-byte file, the range request `bytes=2-5`
yields a 206 whose body is exactly the 4 bytes at offsets 2..5. -/
theorem c7_witness :
    (download_file "gmapsupp.img"
      (fun f => if f = "gmapsupp.img" then some (List.range 10) else none)
      (some "bytes=2-5")).body = ((List.range 10).drop 2).take 4 :=
  (c7_partial_download (List.range 10) 2 5 "bytes=2-5" (by norm_num)
    (by simp) (by decide)).2.1

/-! ### C1: partitioning of oversized bounding boxes -/

/-- When the fast path is not taken, `_compute_tiles` is a row-major grid
of `nLat × nLon` cells with `nLat, nLon ≥ 1` and `nLat * nLon ≥
ceil(area/T)`, with the cell formula of the source loop. -/
theorem compute_tiles_grid (b : BBox) (T : ℚ)
    (hnot : ¬((b.north - b.south) * (b.east - b.west) ≤ T)) :
    ∃ nLat nLon : ℕ, 1 ≤ nLat ∧ 1 ≤ nLon ∧
      (⌈(b.north - b.south) * (b.east - b.west) / T⌉).toNat ≤ nLat * nLon ∧
      compute_tiles b T =
        (List.range nLat).flatMap fun (i : ℕ) =>
          (List.range nLon).map fun (j : ℕ) =>
            ({ south := b.south + (i : ℚ) * ((b.north - b.south) / (nLat : ℚ))
               west := b.west + (j : ℚ) * ((b.east - b.west) / (nLon : ℚ))
               north := min
                 (b.south + ((i : ℚ) + 1) * ((b.north - b.south) / (nLat : ℚ)))
                 b.north
               east := min
                 (b.west + ((j : ℚ) + 1) * ((b.east - b.west) / (nLon : ℚ)))
                 b.east } : BBox) := by
  set A : ℚ := (b.north - b.south) * (b.east - b.west) with hA
  set nt : ℕ := (⌈A / T⌉).toNat with hnt
  set aspect : ℚ :=
    if 0 < b.north - b.south then (b.east - b.west) / (b.north - b.south)
    else 1 with hasp
  set a0 : ℕ := max 1 (roundSqrt ((nt : ℚ) / aspect)) with ha0
  set b0 : ℕ := max 1 (roundSqrt ((nt : ℚ) * aspect)) with hb0
  obtain ⟨ha, hb, hab⟩ := growGrid_spec nt nt a0 b0
    (by rw [ha0]; exact Nat.le_max_left 1 _)
    (by rw [hb0]; exact Nat.le_max_left 1 _) (by omega)
  refine ⟨(growGrid nt nt a0 b0).1, (growGrid nt nt a0 b0).2, ha, hb, hab, ?_⟩
  simp only [compute_tiles]
  rw [← hA, if_neg hnot, ← hnt, ← hasp, ← ha0, ← hb0]

set_option maxHeartbeats 1000000 in
/-- **C1**: for every bounding box whose area exceeds the per-tile
threshold `T`, `_compute_tiles` returns a row-major `nLat × nLon` grid of
tiles: the element at index `k` is the cell at row `k / nLon`, column
`k % nLon`, with each row/column starting where the previous one ends
(the first at the parent's south/west) and each tile's north/east clamped
to the parent's; every tile lies inside the parent and has area at most
`T`; the tiles cover every point of the parent box; and the tile count is
at least `ceil(area/T)`. -/
theorem c1_compute_tiles_partition (b : BBox) (T : ℚ)
    (hsn : b.south < b.north) (hwe : b.west < b.east) (hT : 0 < T)
    (harea : T < (b.north - b.south) * (b.east - b.west)) :
    ((⌈(b.north - b.south) * (b.east - b.west) / T⌉).toNat ≤
      (compute_tiles b T).length) ∧
    (∃ nLat nLon : ℕ, 0 < nLat ∧ 0 < nLon ∧
      (compute_tiles b T).length = nLat * nLon ∧
      ∀ k : ℕ, k < nLat * nLon →
        (compute_tiles b T)[k]? = some
          { south := b.south +
              ((k / nLon : ℕ) : ℚ) * ((b.north - b.south) / (nLat : ℚ))
            west := b.west +
              ((k % nLon : ℕ) : ℚ) * ((b.east - b.west) / (nLon : ℚ))
            north := min (b.south +
              (((k / nLon : ℕ) : ℚ) + 1) * ((b.north - b.south) / (nLat : ℚ)))
              b.north
            east := min (b.west +
              (((k % nLon : ℕ) : ℚ) + 1) * ((b.east - b.west) / (nLon : ℚ)))
              b.east }) ∧
    (∀ t ∈ compute_tiles b T,
      b.south ≤ t.south ∧ t.south < t.north ∧ t.north ≤ b.north ∧
      b.west ≤ t.west ∧ t.west < t.east ∧ t.east ≤ b.east ∧
      (t.north - t.south) * (t.east - t.west) ≤ T) ∧
    (∀ x y : ℚ, b.south ≤ x → x ≤ b.north → b.west ≤ y → y ≤ b.east →
      ∃ t ∈ compute_tiles b T,
        t.south ≤ x ∧ x ≤ t.north ∧ t.west ≤ y ∧ y ≤ t.east) := by
  have hnot : ¬((b.north - b.south) * (b.east - b.west) ≤ T) :=
    not_le.mpr harea
  obtain ⟨nLat, nLon, hL, hO, hge, hct⟩ := compute_tiles_grid b T hnot
  have hspan1 : (0 : ℚ) < b.north - b.south := sub_pos.mpr hsn
  have hspan2 : (0 : ℚ) < b.east - b.west := sub_pos.mpr hwe
  have hlat : (0 : ℚ) < (nLat : ℚ) := by exact_mod_cast hL
  have hlon : (0 : ℚ) < (nLon : ℚ) := by exact_mod_cast hO
  have hstep1 : 0 < (b.north - b.south) / (nLat : ℚ) := div_pos hspan1 hlat
  have hstep2 : 0 < (b.east - b.west) / (nLon : ℚ) := div_pos hspan2 hlon
  have hApos : (0 : ℚ) < (b.north - b.south) * (b.east - b.west) :=
    mul_pos hspan1 hspan2
  have hceil_nonneg : 0 ≤ ⌈(b.north - b.south) * (b.east - b.west) / T⌉ :=
    Int.ceil_nonneg (div_pos hApos hT).le
  have hnt_ge : (b.north - b.south) * (b.east - b.west) / T ≤
      (((⌈(b.north - b.south) * (b.east - b.west) / T⌉).toNat : ℕ) : ℚ) := by
    have hcast : (((⌈(b.north - b.south) * (b.east - b.west) / T⌉).toNat : ℕ) : ℚ) =
        ((⌈(b.north - b.south) * (b.east - b.west) / T⌉ : ℤ) : ℚ) := by
      exact_mod_cast congrArg (fun z : ℤ => (z : ℚ))
        (Int.toNat_of_nonneg hceil_nonneg)
    rw [hcast]
    exact Int.le_ceil _
  have hkey : (b.north - b.south) * (b.east - b.west) ≤
      T * ((nLat : ℚ) * (nLon : ℚ)) := by
    have h2 : (((⌈(b.north - b.south) * (b.east - b.west) / T⌉).toNat : ℕ) : ℚ) ≤
        (nLat : ℚ) * (nLon : ℚ) := by exact_mod_cast hge
    calc (b.north - b.south) * (b.east - b.west)
        = ((b.north - b.south) * (b.east - b.west) / T) * T :=
          (div_mul_cancel₀ _ (ne_of_gt hT)).symm
      _ ≤ (((⌈(b.north - b.south) * (b.east - b.west) / T⌉).toNat : ℕ) : ℚ) * T :=
          mul_le_mul_of_nonneg_right hnt_ge hT.le
      _ ≤ ((nLat : ℚ) * (nLon : ℚ)) * T :=
          mul_le_mul_of_nonneg_right h2 hT.le
      _ = T * ((nLat : ℚ) * (nLon : ℚ)) := mul_comm _ _
  have hstep_bound :
      ((b.north - b.south) / (nLat : ℚ)) * ((b.east - b.west) / (nLon : ℚ)) ≤ T := by
    rw [div_mul_div_comm, div_le_iff₀ (mul_pos hlat hlon)]
    exact hkey
  refine ⟨?_, ?_, ?_, ?_⟩
  · rw [hct, length_range_flatMap]
    exact hge
  · refine ⟨nLat, nLon, hL, hO, ?_, ?_⟩
    · rw [hct, length_range_flatMap]
    · intro k hk
      rw [hct]
      exact getElem?_range_flatMap nLat _ nLon k hk
  · intro t ht
    rw [hct] at ht
    simp only [List.mem_flatMap, List.mem_map, List.mem_range] at ht
    obtain ⟨i, hi, j, hj, rfl⟩ := ht
    have hi1 : ((i : ℚ) + 1) ≤ (nLat : ℚ) := by exact_mod_cast hi
    have hj1 : ((j : ℚ) + 1) ≤ (nLon : ℚ) := by exact_mod_cast hj
    have hfull1 : (nLat : ℚ) * ((b.north - b.south) / (nLat : ℚ)) =
        b.north - b.south := mul_div_cancel₀ _ (ne_of_gt hlat)
    have hfull2 : (nLon : ℚ) * ((b.east - b.west) / (nLon : ℚ)) =
        b.east - b.west := mul_div_cancel₀ _ (ne_of_gt hlon)
    have hclamp1 : b.south + ((i : ℚ) + 1) *
        ((b.north - b.south) / (nLat : ℚ)) ≤ b.north := by
      nlinarith [mul_le_mul_of_nonneg_right hi1 hstep1.le]
    have hclamp2 : b.west + ((j : ℚ) + 1) *
        ((b.east - b.west) / (nLon : ℚ)) ≤ b.east := by
      nlinarith [mul_le_mul_of_nonneg_right hj1 hstep2.le]
    have hmin1 : min (b.south + ((i : ℚ) + 1) *
        ((b.north - b.south) / (nLat : ℚ))) b.north =
        b.south + ((i : ℚ) + 1) * ((b.north - b.south) / (nLat : ℚ)) :=
      min_eq_left hclamp1
    have hmin2 : min (b.west + ((j : ℚ) + 1) *
        ((b.east - b.west) / (nLon : ℚ))) b.east =
        b.west + ((j : ℚ) + 1) * ((b.east - b.west) / (nLon : ℚ)) :=
      min_eq_left hclamp2
    have hipos : (0 : ℚ) ≤ (i : ℚ) := Nat.cast_nonneg i
    have hjpos : (0 : ℚ) ≤ (j : ℚ) := Nat.cast_nonneg j
    dsimp only
    rw [hmin1, hmin2]
    refine ⟨?_, ?_, hclamp1, ?_, ?_, hclamp2, ?_⟩
    · nlinarith [mul_nonneg hipos hstep1.le]
    · nlinarith [hstep1]
    · nlinarith [mul_nonneg hjpos hstep2.le]
    · nlinarith [hstep2]
    · calc (b.south + ((i : ℚ) + 1) * ((b.north - b.south) / (nLat : ℚ)) -
            (b.south + (i : ℚ) * ((b.north - b.south) / (nLat : ℚ)))) *
          (b.west + ((j : ℚ) + 1) * ((b.east - b.west) / (nLon : ℚ)) -
            (b.west + (j : ℚ) * ((b.east - b.west) / (nLon : ℚ))))
          = ((b.north - b.south) / (nLat : ℚ)) *
            ((b.east - b.west) / (nLon : ℚ)) := by ring
        _ ≤ T := hstep_bound
  · intro x y hx1 hx2 hy1 hy2
    obtain ⟨i, hi, hxl, hxr⟩ := coverage1D b.south (b.north - b.south) hspan1
      nLat hL x hx1 (by linarith)
    obtain ⟨j, hj, hyl, hyr⟩ := coverage1D b.west (b.east - b.west) hspan2
      nLon hO y hy1 (by linarith)
    refine ⟨{ south := b.south + (i : ℚ) * ((b.north - b.south) / (nLat : ℚ))
              west := b.west + (j : ℚ) * ((b.east - b.west) / (nLon : ℚ))
              north := min (b.south +
                ((i : ℚ) + 1) * ((b.north - b.south) / (nLat : ℚ))) b.north
              east := min (b.west +
                ((j : ℚ) + 1) * ((b.east - b.west) / (nLon : ℚ))) b.east },
      ?_, ?_, ?_, ?_, ?_⟩
    · rw [hct]
      exact List.mem_flatMap.mpr ⟨i, List.mem_range.mpr hi,
        List.mem_map.mpr ⟨j, List.mem_range.mpr hj, rfl⟩⟩
    · exact hxl
    · exact le_min hxr hx2
    · exact hyl
    · exact le_min hyr hy2

/-- Witness for C1: the spec's example bbox `{44.0, 6.0, 46.0, 8.0}` of
area `4 deg²` with `T = 0.25` yields at least `ceil(16) = 16` tiles. -/
theorem c1_witness :
    (⌈((46:ℚ) - 44) * (8 - 6) / (1/4)⌉).toNat ≤
      (compute_tiles ⟨44, 6, 46, 8⟩ (1/4)).length :=
  (c1_compute_tiles_partition ⟨44, 6, 46, 8⟩ (1/4) (by norm_num)
    (by norm_num) (by norm_num) (by norm_num)).1

end TrailForge
